import Mathlib

/-!
Shallow embedding of the `reactor_engine` interactive control layer:
the first-person `Camera` (src/camera.rs), the input-event model
(src/input.rs) and the window orchestrator's event dispatch
(src/window.rs).  Scalars (`Float = f32`, `TimeSec = f64`,
`RasterFloat = f32`) are modelled as real numbers; the cgmath vector
operations used by the source (`dot`, `cross`, `magnitude`,
`normalize`) are spelled out on an explicit 3-component structure.
-/

noncomputable section

namespace Reactor

/-- Model of `lang::Vector3` / `lang::Point3` (cgmath `Vector3<f32>` / `Point3<f32>`),
with `f32` modelled as `ℝ`. -/
structure Vec3 where
  x : ℝ
  y : ℝ
  z : ℝ

/-- Component-wise addition (`Vector3 + Vector3`, `Point3 += Vector3`). -/
def Vec3.add (a b : Vec3) : Vec3 := ⟨a.x + b.x, a.y + b.y, a.z + b.z⟩

/-- Component-wise negation (the `-(...)` in `Camera::movement`). -/
def Vec3.neg (a : Vec3) : Vec3 := ⟨-a.x, -a.y, -a.z⟩

/-- Model of `Vector3 * scalar` (cgmath scalar multiplication on the right). -/
def Vec3.scale (a : Vec3) (s : ℝ) : Vec3 := ⟨a.x * s, a.y * s, a.z * s⟩

/-- The zero vector (`Vector3::zero()`). -/
def Vec3.zero : Vec3 := ⟨0, 0, 0⟩

/-- cgmath `dot`. -/
def Vec3.dot (a b : Vec3) : ℝ := a.x * b.x + a.y * b.y + a.z * b.z

/-- cgmath `cross`. -/
def Vec3.cross (a b : Vec3) : Vec3 :=
  ⟨a.y * b.z - a.z * b.y, a.z * b.x - a.x * b.z, a.x * b.y - a.y * b.x⟩

/-- Squared magnitude, `dot v v` (cgmath `magnitude2`). -/
def Vec3.normSq (v : Vec3) : ℝ := Vec3.dot v v

/-- cgmath `magnitude`: `sqrt (dot v v)`. -/
def Vec3.norm (v : Vec3) : ℝ := Real.sqrt v.normSq

/-- cgmath `normalize`: `v * (1 / magnitude v)`. -/
def Vec3.normalize (v : Vec3) : Vec3 := v.scale (1 / v.norm)

/-- Model of `f32::to_radians`: multiply by `π / 180`. -/
def toRadians (d : ℝ) : ℝ := d * (Real.pi / 180)

/-- glfw `Action`: `Press`, `Release`, `Repeat` (`rep` stands for `Repeat`). -/
inductive Action where
  | press
  | release
  | rep
deriving DecidableEq

/-- glfw `Key`, reduced to the keys the source distinguishes; every other
key is `other n` with its raw key code. -/
inductive Key where
  | escape
  | w
  | a
  | sKey
  | d
  | other (n : Nat)
deriving DecidableEq

/-- Model of `lang::Direction` (src/lang/common.rs). -/
inductive Direction where
  | FORWARD
  | BACKWARD
  | LEFT
  | RIGHT
deriving DecidableEq

/-- Model of `input::KeyEvent(Key, Scancode, Action, Modifiers)` (src/input.rs);
the scancode and the modifier bitflags are opaque integers here. -/
structure KeyEvent where
  key : Key
  scancode : Int
  action : Action
  modifiers : Nat
deriving DecidableEq

/-- Model of `input::MouseButtonEvent(MouseButton, Action, Modifiers)`; the button
identity is an opaque code. -/
structure MouseButtonEvent where
  button : Nat
  action : Action
  modifiers : Nat
deriving DecidableEq

/-- Model of `input::MouseEvent` (src/input.rs). -/
structure MouseEvent where
  x_pos : ℝ
  y_pos : ℝ
  x_offset : ℝ
  y_offset : ℝ
  is_scroll : Bool
  button_event : Option MouseButtonEvent

/-- The live backend input state a `glfw::Window` exposes to
`on_input` through `get_mouse_button` / `get_key`: the current action of
the left mouse button and of the W, S, A, D keys. -/
structure WindowState where
  mouse_left : Action
  key_w : Action
  key_s : Action
  key_a : Action
  key_d : Action

/-- Model of `camera::Camera` (src/camera.rs). -/
structure Camera where
  position : Vec3
  front : Vec3
  up : Vec3
  right : Vec3
  world_up : Vec3
  near : ℝ
  far : ℝ
  yaw : ℝ
  pitch : ℝ
  constrain_pitch : Bool
  rotate_enabled : Bool
  movement_speed : ℝ
  mouse_sensitivity : ℝ
  zoom : ℝ

/-- Model of `Camera::update_vectors` (src/camera.rs lines 64-75). -/
def Camera.update_vectors (c : Camera) : Camera :=
  let front : Vec3 :=
    ⟨Real.cos (toRadians c.yaw) * Real.cos (toRadians c.pitch),
     Real.sin (toRadians c.pitch),
     Real.sin (toRadians c.yaw) * Real.cos (toRadians c.pitch)⟩
  let f := front.normalize
  let r := (f.cross c.world_up).normalize
  let u := (r.cross f).normalize
  { c with front := f, right := r, up := u }

/-- Model of `Camera::movement` (src/camera.rs lines 77-92). -/
def Camera.movement (c : Camera) (direction : Direction) (delta_time : ℝ) : Camera :=
  match direction with
  | Direction.FORWARD =>
    { c with position := c.position.add ((c.front.scale c.movement_speed).scale delta_time) }
  | Direction.BACKWARD =>
    { c with position := c.position.add ((c.front.scale c.movement_speed).scale delta_time).neg }
  | Direction.LEFT =>
    { c with position := c.position.add ((c.right.scale c.movement_speed).scale delta_time).neg }
  | Direction.RIGHT =>
    { c with position := c.position.add ((c.right.scale c.movement_speed).scale delta_time) }

/-- Model of `<Camera as InputControl>::on_mouse` (src/camera.rs lines 96-134). -/
def Camera.on_mouse (c : Camera) (mouse : MouseEvent) (_delta_time : ℝ) : Camera :=
  if mouse.is_scroll then
    let c1 := if 1 ≤ c.zoom ∧ c.zoom ≤ 45 then { c with zoom := c.zoom - mouse.y_offset } else c
    let c2 := if c1.zoom ≤ 1 then { c1 with zoom := 1 } else c1
    if 45 ≤ c2.zoom then { c2 with zoom := 45 } else c2
  else
    if c.rotate_enabled then
      let x_offset := mouse.x_offset * c.mouse_sensitivity
      let y_offset := mouse.y_offset * c.mouse_sensitivity
      let c1 := { c with yaw := c.yaw + x_offset, pitch := c.pitch + y_offset }
      let c2 :=
        if c1.constrain_pitch then
          let c2a := if 89 < c1.pitch then { c1 with pitch := 89 } else c1
          if c2a.pitch < -89 then { c2a with pitch := -89 } else c2a
        else c1
      c2.update_vectors
    else c

/-- Model of `<Camera as InputControl>::on_keyboard` (src/camera.rs lines 136-137):
an empty body. -/
def Camera.on_keyboard (c : Camera) (_key : KeyEvent) (_delta_time : ℝ) : Camera := c

/-- Model of `<Camera as InputControl>::on_input` (src/camera.rs lines 139-162). -/
def Camera.on_input (c : Camera) (w : WindowState) (delta_time : ℝ) : Camera :=
  let c0 :=
    match w.mouse_left with
    | Action.press => if !c.rotate_enabled then { c with rotate_enabled := true } else c
    | Action.release => if c.rotate_enabled then { c with rotate_enabled := false } else c
    | Action.rep => c
  let c1 := if w.key_w = Action.press then c0.movement Direction.FORWARD delta_time else c0
  let c2 := if w.key_s = Action.press then c1.movement Direction.BACKWARD delta_time else c1
  let c3 := if w.key_a = Action.press then c2.movement Direction.LEFT delta_time else c2
  if w.key_d = Action.press then c3.movement Direction.RIGHT delta_time else c3

/-- Model of `Camera::default` (src/camera.rs lines 30-51). -/
def Camera.defaultCamera : Camera :=
  Camera.update_vectors
    { position := ⟨0, 0, 3⟩
      front := ⟨0, 0, -1⟩
      up := Vec3.zero
      right := Vec3.zero
      world_up := ⟨0, 1, 0⟩
      near := 0.1
      far := 100
      yaw := -90
      pitch := 0
      constrain_pitch := true
      rotate_enabled := false
      movement_speed := 2.5
      mouse_sensitivity := 0.1
      zoom := 45 }

/-- The pre-`update_vectors` record of `Camera::default`, used as a
concrete state in witnesses. -/
def camera0 : Camera :=
  { position := ⟨0, 0, 3⟩
    front := ⟨0, 0, -1⟩
    up := Vec3.zero
    right := Vec3.zero
    world_up := ⟨0, 1, 0⟩
    near := 0.1
    far := 100
    yaw := -90
    pitch := 0
    constrain_pitch := true
    rotate_enabled := false
    movement_speed := 2.5
    mouse_sensitivity := 0.1
    zoom := 45 }

/-- One registered controllable: an `ObjectPar<InputControl>`
(`Arc<Mutex<dyn InputControl>>`, src/lang/object.rs).  `lock_ok` models
whether `Mutex::lock` succeeds (it fails only for a poisoned mutex);
`state` is the controllable's own state and the three handlers are its
`InputControl` implementation (dynamic dispatch). -/
structure Controllable (σ : Type) where
  lock_ok : Bool
  state : σ
  on_mouse : σ → MouseEvent → ℝ → σ
  on_keyboard : σ → KeyEvent → ℝ → σ
  on_input : σ → WindowState → ℝ → σ

/-- The `for control in self.controls.iter()` loop of
`<Window as InputEvent>::mouse_event` (src/window.rs lines 183-189):
visit each controllable in order; on a successful lock run its
`on_mouse`, otherwise leave it untouched. -/
def dispatchMouse {σ : Type} (e : MouseEvent) (dt : ℝ) :
    List (Controllable σ) → List (Controllable σ)
  | [] => []
  | c :: rest =>
    (if c.lock_ok then { c with state := c.on_mouse c.state e dt } else c)
      :: dispatchMouse e dt rest

/-- The loop of `<Window as InputEvent>::keyboard_event`
(src/window.rs lines 197-201). -/
def dispatchKeyboard {σ : Type} (e : KeyEvent) (dt : ℝ) :
    List (Controllable σ) → List (Controllable σ)
  | [] => []
  | c :: rest =>
    (if c.lock_ok then { c with state := c.on_keyboard c.state e dt } else c)
      :: dispatchKeyboard e dt rest

/-- The loop of `Window::process_input` (src/window.rs lines 158-164). -/
def dispatchInput {σ : Type} (w : WindowState) (dt : ℝ) :
    List (Controllable σ) → List (Controllable σ)
  | [] => []
  | c :: rest =>
    (if c.lock_ok then { c with state := c.on_input c.state w dt } else c)
      :: dispatchInput w dt rest

/-- Model of `window::Window` (src/window.rs), restricted to the state the claims
touch: the registered controllables, the frame's `delta_time`, the
backend's should-close flag, the last known mouse position, and the
backend's live input state (what `get_key` / `get_mouse_button` report). -/
structure WindowModel (σ : Type) where
  controls : List (Controllable σ)
  delta_time : ℝ
  should_close : Bool
  last_mouse_pos : Option (ℝ × ℝ)
  poll : WindowState

/-- Model of `<Window as InputEvent>::mouse_event` (src/window.rs lines 183-189). -/
def WindowModel.mouse_event {σ : Type} (w : WindowModel σ) (e : MouseEvent) : WindowModel σ :=
  { w with controls := dispatchMouse e w.delta_time w.controls }

/-- Model of `<Window as InputEvent>::keyboard_event` (src/window.rs lines
191-202): intercept `Escape` + `Press` by setting the backend's
should-close flag, then dispatch the event to every controllable. -/
def WindowModel.keyboard_event {σ : Type} (w : WindowModel σ) (e : KeyEvent) : WindowModel σ :=
  let w1 :=
    match e.key, e.action with
    | Key.escape, Action.press => { w with should_close := true }
    | _, _ => w
  { w1 with controls := dispatchKeyboard e w1.delta_time w1.controls }

/-- Model of `Window::process_input` (src/window.rs lines 158-164). -/
def WindowModel.process_input {σ : Type} (w : WindowModel σ) : WindowModel σ :=
  { w with controls := dispatchInput w.poll w.delta_time w.controls }

/-- The `WindowEvent::CursorPos` arm of `Window::process_events`
(src/window.rs lines 105-126): seed `last_mouse_pos` when unset, compute
the offsets against the last position (vertical inverted), store the
current position, and dispatch the resulting `MouseEvent`.  `Option.getD`
models the `unwrap()` that the preceding seeding makes infallible. -/
def WindowModel.cursor_pos {σ : Type} (w : WindowModel σ) (x_pos y_pos : ℝ) : WindowModel σ :=
  let w1 := if w.last_mouse_pos.isNone then { w with last_mouse_pos := some (x_pos, y_pos) } else w
  let last := w1.last_mouse_pos.getD (x_pos, y_pos)
  let x_offset := x_pos - last.1
  let y_offset := last.2 - y_pos
  let w2 := { w1 with last_mouse_pos := some (x_pos, y_pos) }
  w2.mouse_event ⟨x_pos, y_pos, x_offset, y_offset, false, none⟩

/-! ### Vector algebra lemmas -/

theorem Vec3.ext_xyz {a b : Vec3} (hx : a.x = b.x) (hy : a.y = b.y) (hz : a.z = b.z) :
    a = b := by
  cases a; cases b; simp only at hx hy hz; simp [hx, hy, hz]

theorem Vec3.dot_comm (a b : Vec3) : Vec3.dot a b = Vec3.dot b a := by
  simp only [Vec3.dot]; ring

theorem Vec3.dot_cross_left (a b : Vec3) : Vec3.dot a (Vec3.cross a b) = 0 := by
  simp only [Vec3.dot, Vec3.cross]; ring

theorem Vec3.dot_cross_right (a b : Vec3) : Vec3.dot b (Vec3.cross a b) = 0 := by
  simp only [Vec3.dot, Vec3.cross]; ring

theorem Vec3.dot_scale_right (a b : Vec3) (s : ℝ) :
    Vec3.dot a (b.scale s) = s * Vec3.dot a b := by
  simp only [Vec3.dot, Vec3.scale]; ring

theorem Vec3.dot_scale_left (a b : Vec3) (s : ℝ) :
    Vec3.dot (a.scale s) b = s * Vec3.dot a b := by
  simp only [Vec3.dot, Vec3.scale]; ring

theorem Vec3.normSq_scale (v : Vec3) (s : ℝ) :
    (v.scale s).normSq = s ^ 2 * v.normSq := by
  simp only [Vec3.normSq, Vec3.dot, Vec3.scale]; ring

/-- Lagrange's identity for the cross product. -/
theorem Vec3.normSq_cross (a b : Vec3) :
    (Vec3.cross a b).normSq = a.normSq * b.normSq - (Vec3.dot a b) ^ 2 := by
  simp only [Vec3.normSq, Vec3.dot, Vec3.cross]; ring

theorem Vec3.normSq_nonneg (v : Vec3) : 0 ≤ v.normSq := by
  simp only [Vec3.normSq, Vec3.dot]
  nlinarith [sq_nonneg v.x, sq_nonneg v.y, sq_nonneg v.z]

/-- Normalizing a vector of squared magnitude 1 leaves it unchanged. -/
theorem Vec3.normalize_of_normSq_one {v : Vec3} (h : v.normSq = 1) :
    v.normalize = v := by
  have hn : v.norm = 1 := by rw [Vec3.norm, h, Real.sqrt_one]
  apply Vec3.ext_xyz <;> simp [Vec3.normalize, Vec3.scale, hn]

/-- Normalizing a vector of positive squared magnitude yields a unit
vector. -/
theorem Vec3.normSq_normalize {v : Vec3} (h : 0 < v.normSq) :
    v.normalize.normSq = 1 := by
  have hs : Real.sqrt v.normSq ^ 2 = v.normSq := Real.sq_sqrt (le_of_lt h)
  have hne : Real.sqrt v.normSq ≠ 0 := by
    have := Real.sqrt_pos.mpr h
    exact ne_of_gt this
  rw [Vec3.normalize, Vec3.normSq_scale, Vec3.norm]
  rw [div_pow, one_pow, hs]
  field_simp

theorem Vec3.norm_of_normSq_one {v : Vec3} (h : v.normSq = 1) : v.norm = 1 := by
  rw [Vec3.norm, h, Real.sqrt_one]

/-! ### Basis recompute (`Camera::update_vectors`) -/

/-- The pre-normalization front vector of `Camera::update_vectors`:
the spherical-to-Cartesian conversion of yaw/pitch (degrees). -/
def sphericalVec (yaw pitch : ℝ) : Vec3 :=
  ⟨Real.cos (toRadians yaw) * Real.cos (toRadians pitch),
   Real.sin (toRadians pitch),
   Real.sin (toRadians yaw) * Real.cos (toRadians pitch)⟩

theorem Camera.update_vectors_front (c : Camera) :
    (c.update_vectors).front = (sphericalVec c.yaw c.pitch).normalize := rfl

theorem Camera.update_vectors_right (c : Camera) :
    (c.update_vectors).right =
      (Vec3.cross (sphericalVec c.yaw c.pitch).normalize c.world_up).normalize := rfl

theorem Camera.update_vectors_up (c : Camera) :
    (c.update_vectors).up =
      (Vec3.cross (Vec3.cross (sphericalVec c.yaw c.pitch).normalize c.world_up).normalize
        (sphericalVec c.yaw c.pitch).normalize).normalize := rfl

/-- The spherical-to-Cartesian vector is already unit length. -/
theorem sphericalVec_normSq (yaw pitch : ℝ) : (sphericalVec yaw pitch).normSq = 1 := by
  simp only [sphericalVec, Vec3.normSq, Vec3.dot]
  have h1 := Real.sin_sq_add_cos_sq (toRadians yaw)
  have h2 := Real.sin_sq_add_cos_sq (toRadians pitch)
  linear_combination (Real.cos (toRadians pitch)) ^ 2 * h1 + h2

/-- A pitch within [-89, 89] degrees converts to a radian angle in
(-π/2, π/2), where cosine is positive. -/
theorem toRadians_cos_pos {pitch : ℝ} (h1 : -89 ≤ pitch) (h2 : pitch ≤ 89) :
    0 < Real.cos (toRadians pitch) := by
  have hpi := Real.pi_pos
  apply Real.cos_pos_of_mem_Ioo
  refine Set.mem_Ioo.mpr ⟨?_, ?_⟩
  · unfold toRadians; nlinarith
  · unfold toRadians; nlinarith

/-- Claim C1: for every yaw in [-180, 180] and pitch in [-89, 89]
(degrees), `Camera::update_vectors` sets
`front = normalize (cos yaw * cos pitch, sin pitch, sin yaw * cos pitch)`,
`right = normalize (front × world_up)` and `up = normalize (right × front)`,
and (with the construction-time `world_up = (0,1,0)`) the resulting
front, right and up are pairwise orthogonal (dot products exactly 0, hence
within any floating epsilon) and unit length. -/
theorem update_vectors_orthonormal (c : Camera)
    (hwu : c.world_up = ⟨0, 1, 0⟩)
    (_hy1 : -180 ≤ c.yaw) (_hy2 : c.yaw ≤ 180)
    (hp1 : -89 ≤ c.pitch) (hp2 : c.pitch ≤ 89) :
    (c.update_vectors).front = (sphericalVec c.yaw c.pitch).normalize ∧
    (c.update_vectors).right =
      (Vec3.cross (c.update_vectors).front c.world_up).normalize ∧
    (c.update_vectors).up =
      (Vec3.cross (c.update_vectors).right (c.update_vectors).front).normalize ∧
    Vec3.dot (c.update_vectors).front (c.update_vectors).right = 0 ∧
    Vec3.dot (c.update_vectors).front (c.update_vectors).up = 0 ∧
    Vec3.dot (c.update_vectors).right (c.update_vectors).up = 0 ∧
    Vec3.norm (c.update_vectors).front = 1 ∧
    Vec3.norm (c.update_vectors).right = 1 ∧
    Vec3.norm (c.update_vectors).up = 1 := by
  have hv1 : (sphericalVec c.yaw c.pitch).normSq = 1 := sphericalVec_normSq c.yaw c.pitch
  have hcos : 0 < Real.cos (toRadians c.pitch) := toRadians_cos_pos hp1 hp2
  have hfv : (c.update_vectors).front = sphericalVec c.yaw c.pitch := by
    rw [Camera.update_vectors_front, Vec3.normalize_of_normSq_one hv1]
  have hrv : (c.update_vectors).right =
      (Vec3.cross (sphericalVec c.yaw c.pitch) (⟨0, 1, 0⟩ : Vec3)).normalize := by
    rw [Camera.update_vectors_right, Vec3.normalize_of_normSq_one hv1, hwu]
  have huv : (c.update_vectors).up =
      (Vec3.cross ((Vec3.cross (sphericalVec c.yaw c.pitch) (⟨0, 1, 0⟩ : Vec3)).normalize)
        (sphericalVec c.yaw c.pitch)).normalize := by
    rw [Camera.update_vectors_up, Vec3.normalize_of_normSq_one hv1, hwu]
  have hwuSq : ((⟨0, 1, 0⟩ : Vec3)).normSq = 1 := by
    simp [Vec3.normSq, Vec3.dot]
  have hdvwu : Vec3.dot (sphericalVec c.yaw c.pitch) (⟨0, 1, 0⟩ : Vec3) =
      Real.sin (toRadians c.pitch) := by
    simp [sphericalVec, Vec3.dot]
  have hr0 : (Vec3.cross (sphericalVec c.yaw c.pitch) (⟨0, 1, 0⟩ : Vec3)).normSq =
      Real.cos (toRadians c.pitch) ^ 2 := by
    rw [Vec3.normSq_cross, hv1, hwuSq, hdvwu]
    have := Real.sin_sq_add_cos_sq (toRadians c.pitch)
    linarith
  have hr0pos : 0 < (Vec3.cross (sphericalVec c.yaw c.pitch) (⟨0, 1, 0⟩ : Vec3)).normSq := by
    rw [hr0]; exact pow_pos hcos 2
  have hrSq : ((Vec3.cross (sphericalVec c.yaw c.pitch) (⟨0, 1, 0⟩ : Vec3)).normalize).normSq = 1 :=
    Vec3.normSq_normalize hr0pos
  have hdfr : Vec3.dot (sphericalVec c.yaw c.pitch)
      ((Vec3.cross (sphericalVec c.yaw c.pitch) (⟨0, 1, 0⟩ : Vec3)).normalize) = 0 := by
    simp only [Vec3.normalize]
    rw [Vec3.dot_scale_right, Vec3.dot_cross_left, mul_zero]
  have hdrv : Vec3.dot ((Vec3.cross (sphericalVec c.yaw c.pitch) (⟨0, 1, 0⟩ : Vec3)).normalize)
      (sphericalVec c.yaw c.pitch) = 0 := by
    rw [Vec3.dot_comm]; exact hdfr
  have hu0 : (Vec3.cross ((Vec3.cross (sphericalVec c.yaw c.pitch) (⟨0, 1, 0⟩ : Vec3)).normalize)
      (sphericalVec c.yaw c.pitch)).normSq = 1 := by
    rw [Vec3.normSq_cross, hrSq, hv1, hdrv]; norm_num
  have huSq : ((Vec3.cross ((Vec3.cross (sphericalVec c.yaw c.pitch) (⟨0, 1, 0⟩ : Vec3)).normalize)
      (sphericalVec c.yaw c.pitch)).normalize).normSq = 1 :=
    Vec3.normSq_normalize (by rw [hu0]; norm_num)
  have hdru : Vec3.dot ((Vec3.cross (sphericalVec c.yaw c.pitch) (⟨0, 1, 0⟩ : Vec3)).normalize)
      ((Vec3.cross ((Vec3.cross (sphericalVec c.yaw c.pitch) (⟨0, 1, 0⟩ : Vec3)).normalize)
        (sphericalVec c.yaw c.pitch)).normalize) = 0 := by
    simp only [Vec3.normalize]
    rw [Vec3.dot_scale_right, Vec3.dot_cross_left, mul_zero]
  have hdfu : Vec3.dot (sphericalVec c.yaw c.pitch)
      ((Vec3.cross ((Vec3.cross (sphericalVec c.yaw c.pitch) (⟨0, 1, 0⟩ : Vec3)).normalize)
        (sphericalVec c.yaw c.pitch)).normalize) = 0 := by
    simp only [Vec3.normalize]
    rw [Vec3.dot_scale_right, Vec3.dot_cross_right, mul_zero]
  refine ⟨rfl, rfl, rfl, ?_, ?_, ?_, ?_, ?_, ?_⟩
  · rw [hfv, hrv]; exact hdfr
  · rw [hfv, huv]; exact hdfu
  · rw [hrv, huv]; exact hdru
  · rw [hfv]; exact Vec3.norm_of_normSq_one hv1
  · rw [hrv]; exact Vec3.norm_of_normSq_one hrSq
  · rw [huv]; exact Vec3.norm_of_normSq_one huSq

/-- Witness for claim C1: the hypotheses and conclusion hold at the
construction-time camera state (yaw = -90, pitch = 0, world_up = (0,1,0)). -/
theorem update_vectors_orthonormal_witness :
    (camera0.world_up = ⟨0, 1, 0⟩ ∧ -180 ≤ camera0.yaw ∧ camera0.yaw ≤ 180 ∧
      -89 ≤ camera0.pitch ∧ camera0.pitch ≤ 89) ∧
    ((camera0.update_vectors).front = (sphericalVec camera0.yaw camera0.pitch).normalize ∧
     (camera0.update_vectors).right =
       (Vec3.cross (camera0.update_vectors).front camera0.world_up).normalize ∧
     (camera0.update_vectors).up =
       (Vec3.cross (camera0.update_vectors).right (camera0.update_vectors).front).normalize ∧
     Vec3.dot (camera0.update_vectors).front (camera0.update_vectors).right = 0 ∧
     Vec3.dot (camera0.update_vectors).front (camera0.update_vectors).up = 0 ∧
     Vec3.dot (camera0.update_vectors).right (camera0.update_vectors).up = 0 ∧
     Vec3.norm (camera0.update_vectors).front = 1 ∧
     Vec3.norm (camera0.update_vectors).right = 1 ∧
     Vec3.norm (camera0.update_vectors).up = 1) :=
  ⟨⟨rfl, by norm_num [camera0], by norm_num [camera0], by norm_num [camera0],
      by norm_num [camera0]⟩,
   update_vectors_orthonormal camera0 rfl (by norm_num [camera0]) (by norm_num [camera0])
     (by norm_num [camera0]) (by norm_num [camera0])⟩

/-! ### Mouse handling claims -/

theorem Camera.update_vectors_pitch (c : Camera) : (c.update_vectors).pitch = c.pitch := rfl

/-- A camera state with rotation enabled, used as a concrete state in
witnesses. -/
def cameraR : Camera := { camera0 with rotate_enabled := true }

/-- Counterexample for claim C2 as stated: the claim quantifies over
every camera state, but on a state whose zoom is already out of range
(zoom = 46) the code's entry guard `1 <= zoom && zoom <= 45` skips the
subtraction, so a scroll offset of 10 yields zoom 45 (the post-clamp of
the untouched 46) instead of the claimed clamp of 46 - 10 = 36. -/
theorem on_mouse_scroll_clamp_counterexample :
    ¬ ((Camera.on_mouse { camera0 with zoom := 46 } ⟨0, 0, 0, 10, true, none⟩ 0).zoom =
        min 45 (max 1 (({ camera0 with zoom := 46 } : Camera).zoom - 10))) := by
  have h : (Camera.on_mouse { camera0 with zoom := 46 } ⟨0, 0, 0, 10, true, none⟩ 0).zoom = 45 := by
    norm_num [Camera.on_mouse, camera0]
  rw [h]
  have h2 : (({ camera0 with zoom := 46 } : Camera)).zoom = 46 := rfl
  rw [h2]
  norm_num

/-- Claim C2 (amended): for every camera state whose zoom already lies in
[1, 45] (the invariant the scroll handler itself maintains) and every
scroll MouseEvent with vertical offset d, mouse-scroll handling sets zoom
to (zoom - d) re-clamped after the mutation to [1, 45]; an overshooting
offset is corrected to the boundary, not rejected, so the result is again
within [1, 45] after each step. -/
theorem on_mouse_scroll_zoom_clamp (c : Camera) (e : MouseEvent) (dt : ℝ)
    (hs : e.is_scroll = true) (h1 : 1 ≤ c.zoom) (h2 : c.zoom ≤ 45) :
    (c.on_mouse e dt).zoom = min 45 (max 1 (c.zoom - e.y_offset)) ∧
    1 ≤ (c.on_mouse e dt).zoom ∧ (c.on_mouse e dt).zoom ≤ 45 := by
  have key : (c.on_mouse e dt).zoom = min 45 (max 1 (c.zoom - e.y_offset)) := by
    simp only [Camera.on_mouse, hs]
    rw [if_pos trivial, if_pos (And.intro h1 h2)]
    split_ifs <;> simp_all [min_def, max_def] <;> first
      | rfl
      | linarith
      | (split_ifs <;> linarith)
  refine ⟨key, ?_, ?_⟩
  · rw [key]
    exact le_min (by norm_num) (le_max_left 1 _)
  · rw [key]
    exact min_le_left 45 _

/-- Witness for claim C2 (amended): the default zoom 45 with a scroll
offset of +1000 is clamped to the boundary 1 and stays within [1, 45]. -/
theorem on_mouse_scroll_zoom_clamp_witness :
    ((⟨0, 0, 1000, 1000, true, none⟩ : MouseEvent).is_scroll = true ∧
      1 ≤ camera0.zoom ∧ camera0.zoom ≤ 45) ∧
    ((camera0.on_mouse ⟨0, 0, 1000, 1000, true, none⟩ 0).zoom =
       min 45 (max 1 (camera0.zoom - 1000)) ∧
     1 ≤ (camera0.on_mouse ⟨0, 0, 1000, 1000, true, none⟩ 0).zoom ∧
     (camera0.on_mouse ⟨0, 0, 1000, 1000, true, none⟩ 0).zoom ≤ 45) :=
  ⟨⟨rfl, by norm_num [camera0], by norm_num [camera0]⟩,
   on_mouse_scroll_zoom_clamp camera0 ⟨0, 0, 1000, 1000, true, none⟩ 0 rfl
     (by norm_num [camera0]) (by norm_num [camera0])⟩

/-- Claim C3: while rotate_enabled is true, a cursor-motion MouseEvent has
its x/y offsets scaled by mouse_sensitivity and added to yaw and pitch,
pitch is clamped to [-89, 89] when constrain_pitch is set, and the basis
is recomputed; an offset that drives pitch to 89 or beyond yields pitch
exactly 89 when constrain_pitch is true. -/
theorem on_mouse_motion_rotation (c : Camera) (e : MouseEvent) (dt : ℝ)
    (hs : e.is_scroll = false) (hr : c.rotate_enabled = true) :
    (c.on_mouse e dt =
      Camera.update_vectors
        { c with
          yaw := c.yaw + e.x_offset * c.mouse_sensitivity,
          pitch :=
            if c.constrain_pitch then
              max (-89) (min 89 (c.pitch + e.y_offset * c.mouse_sensitivity))
            else c.pitch + e.y_offset * c.mouse_sensitivity }) ∧
    (c.constrain_pitch = true → 89 ≤ c.pitch + e.y_offset * c.mouse_sensitivity →
      (c.on_mouse e dt).pitch = 89) := by
  have hmain : c.on_mouse e dt =
      Camera.update_vectors
        { c with
          yaw := c.yaw + e.x_offset * c.mouse_sensitivity,
          pitch :=
            if c.constrain_pitch then
              max (-89) (min 89 (c.pitch + e.y_offset * c.mouse_sensitivity))
            else c.pitch + e.y_offset * c.mouse_sensitivity } := by
    by_cases hc : c.constrain_pitch = true
    · by_cases hpHigh : 89 < c.pitch + e.y_offset * c.mouse_sensitivity
      · have hmin : min (89 : ℝ) (c.pitch + e.y_offset * c.mouse_sensitivity) = 89 :=
          min_eq_left (le_of_lt hpHigh)
        norm_num [Camera.on_mouse, hs, hr, hc, hpHigh, hmin]
      · by_cases hpLow : c.pitch + e.y_offset * c.mouse_sensitivity < -89
        · have hmin : min (89 : ℝ) (c.pitch + e.y_offset * c.mouse_sensitivity) =
              c.pitch + e.y_offset * c.mouse_sensitivity := min_eq_right (le_of_not_lt hpHigh)
          have hmax : max (-89 : ℝ) (c.pitch + e.y_offset * c.mouse_sensitivity) = -89 :=
            max_eq_left (le_of_lt hpLow)
          norm_num [Camera.on_mouse, hs, hr, hc, hpHigh, hpLow, hmin, hmax]
        · have hmin : min (89 : ℝ) (c.pitch + e.y_offset * c.mouse_sensitivity) =
              c.pitch + e.y_offset * c.mouse_sensitivity := min_eq_right (le_of_not_lt hpHigh)
          have hmax : max (-89 : ℝ) (c.pitch + e.y_offset * c.mouse_sensitivity) =
              c.pitch + e.y_offset * c.mouse_sensitivity := max_eq_right (le_of_not_lt hpLow)
          norm_num [Camera.on_mouse, hs, hr, hc, hpHigh, hpLow, hmin, hmax]
    · simp [Camera.on_mouse, hs, hr, hc]
  refine ⟨hmain, fun hc h89 => ?_⟩
  rw [hmain, Camera.update_vectors_pitch]
  simp only [hc, if_pos rfl]
  rw [if_pos trivial, min_eq_left h89, max_eq_right (by norm_num : (-89 : ℝ) ≤ 89)]

/-- Witness for claim C3: from the default state with rotation enabled, a
motion offset of (0, 2000) at sensitivity 0.1 would drive pitch to 200
degrees; the handler yields pitch exactly 89. -/
theorem on_mouse_motion_rotation_witness :
    ((⟨0, 0, 0, 2000, false, none⟩ : MouseEvent).is_scroll = false ∧
      cameraR.rotate_enabled = true) ∧
    (cameraR.on_mouse ⟨0, 0, 0, 2000, false, none⟩ 0).pitch = 89 :=
  ⟨⟨rfl, rfl⟩,
   (on_mouse_motion_rotation cameraR ⟨0, 0, 0, 2000, false, none⟩ 0 rfl rfl).2 rfl
     (by norm_num [cameraR, camera0])⟩

/-- Claim C6: if rotate_enabled is false, processing a cursor-motion
MouseEvent leaves the entire camera state unchanged. -/
theorem on_mouse_motion_disabled (c : Camera) (e : MouseEvent) (dt : ℝ)
    (hs : e.is_scroll = false) (hr : c.rotate_enabled = false) :
    c.on_mouse e dt = c := by
  simp [Camera.on_mouse, hs, hr]

/-- Witness for claim C6: the default state (rotation disabled) is left
unchanged by a cursor-motion event with offsets (50, 50). -/
theorem on_mouse_motion_disabled_witness :
    ((⟨0, 0, 50, 50, false, none⟩ : MouseEvent).is_scroll = false ∧
      camera0.rotate_enabled = false) ∧
    camera0.on_mouse ⟨0, 0, 50, 50, false, none⟩ 0 = camera0 :=
  ⟨⟨rfl, rfl⟩, on_mouse_motion_disabled camera0 ⟨0, 0, 50, 50, false, none⟩ 0 rfl rfl⟩

/-- Claim C10: the camera's discrete keyboard handler is a no-op: for
every KeyEvent and every delta_time it returns the camera unchanged. -/
theorem on_keyboard_noop (c : Camera) (k : KeyEvent) (dt : ℝ) : c.on_keyboard k dt = c := rfl

/-- Claim C9: each `movement` call translates position along front or
right (sign-flipped for backward/left) scaled by movement_speed *
delta_time, and movement is frame-rate independent: one move with
delta 1.0 lands at the same position as two moves with delta 0.5, exactly
(hence within any epsilon). -/
theorem movement_framerate_independent (c : Camera) (d : Direction) (t s : ℝ) :
    (c.movement Direction.FORWARD t).position =
      c.position.add ((c.front.scale c.movement_speed).scale t) ∧
    (c.movement Direction.BACKWARD t).position =
      c.position.add ((c.front.scale c.movement_speed).scale t).neg ∧
    (c.movement Direction.LEFT t).position =
      c.position.add ((c.right.scale c.movement_speed).scale t).neg ∧
    (c.movement Direction.RIGHT t).position =
      c.position.add ((c.right.scale c.movement_speed).scale t) ∧
    ((c.movement d t).movement d s).position = (c.movement d (t + s)).position ∧
    ((c.movement d 0.5).movement d 0.5).position = (c.movement d 1).position := by
  refine ⟨rfl, rfl, rfl, rfl, ?_, ?_⟩
  · cases d <;>
      (apply Vec3.ext_xyz <;> simp [Camera.movement, Vec3.add, Vec3.scale, Vec3.neg] <;> ring)
  · cases d <;>
      (apply Vec3.ext_xyz <;> simp [Camera.movement, Vec3.add, Vec3.scale, Vec3.neg] <;> ring)

/-! ### Continuous input poll (`Camera::on_input`) -/

theorem Camera.movement_rotate_enabled (c : Camera) (d : Direction) (t : ℝ) :
    (c.movement d t).rotate_enabled = c.rotate_enabled := by cases d <;> rfl

theorem Camera.movement_front (c : Camera) (d : Direction) (t : ℝ) :
    (c.movement d t).front = c.front := by cases d <;> rfl

theorem Camera.movement_right_vec (c : Camera) (d : Direction) (t : ℝ) :
    (c.movement d t).right = c.right := by cases d <;> rfl

theorem Camera.movement_movement_speed (c : Camera) (d : Direction) (t : ℝ) :
    (c.movement d t).movement_speed = c.movement_speed := by cases d <;> rfl

theorem Camera.movement_position_forward (c : Camera) (t : ℝ) :
    (c.movement Direction.FORWARD t).position =
      c.position.add ((c.front.scale c.movement_speed).scale t) := rfl

theorem Camera.movement_position_backward (c : Camera) (t : ℝ) :
    (c.movement Direction.BACKWARD t).position =
      c.position.add ((c.front.scale c.movement_speed).scale t).neg := rfl

theorem Camera.movement_position_left (c : Camera) (t : ℝ) :
    (c.movement Direction.LEFT t).position =
      c.position.add ((c.right.scale c.movement_speed).scale t).neg := rfl

theorem Camera.movement_position_right (c : Camera) (t : ℝ) :
    (c.movement Direction.RIGHT t).position =
      c.position.add ((c.right.scale c.movement_speed).scale t) := rfl

theorem Vec3.add_zero_vec (a : Vec3) : a.add Vec3.zero = a := by
  apply Vec3.ext_xyz <;> simp [Vec3.add, Vec3.zero]

/-- The rotate-toggle `match` of `Camera::on_input` written as an
if-expression: its observable result is `rotate_enabled := press ↦ true,
release ↦ false, repeat ↦ unchanged`. -/
theorem Camera.on_input_toggle (c : Camera) (w : WindowState) (dt : ℝ) :
    c.on_input w dt =
      (let c0 : Camera :=
        { c with rotate_enabled :=
            if w.mouse_left = Action.press then true
            else if w.mouse_left = Action.release then false
            else c.rotate_enabled }
       let c1 := if w.key_w = Action.press then c0.movement Direction.FORWARD dt else c0
       let c2 := if w.key_s = Action.press then c1.movement Direction.BACKWARD dt else c1
       let c3 := if w.key_a = Action.press then c2.movement Direction.LEFT dt else c2
       if w.key_d = Action.press then c3.movement Direction.RIGHT dt else c3) := by
  obtain ⟨ml, kw, ks, ka, kd⟩ := w
  obtain ⟨pos, fr, upv, ri, wu, ne, fa, ya, pi, cp, re, ms, sens, zo⟩ := c
  cases ml <;> cases re <;> simp [Camera.on_input]

/-- Claim C5: on every continuous poll, rotate_enabled follows the
backend's live left-button state (true when it reports press, false when
it reports release, no change otherwise, the guards making the write
edge-triggered), and `movement` is applied once per held WASD key with
the corresponding direction and the frame's delta_time, independently and
additively: two held keys produce two additive moves in the same frame. -/
theorem on_input_poll (c : Camera) (w : WindowState) (dt : ℝ) :
    ((c.on_input w dt).rotate_enabled =
      (if w.mouse_left = Action.press then true
       else if w.mouse_left = Action.release then false
       else c.rotate_enabled)) ∧
    ((c.on_input w dt).position =
      (((c.position.add
          (if w.key_w = Action.press then (c.front.scale c.movement_speed).scale dt
           else Vec3.zero)).add
          (if w.key_s = Action.press then ((c.front.scale c.movement_speed).scale dt).neg
           else Vec3.zero)).add
          (if w.key_a = Action.press then ((c.right.scale c.movement_speed).scale dt).neg
           else Vec3.zero)).add
          (if w.key_d = Action.press then (c.right.scale c.movement_speed).scale dt
           else Vec3.zero)) ∧
    (w.key_w = Action.press → w.key_d = Action.press →
     w.key_s ≠ Action.press → w.key_a ≠ Action.press →
     c.on_input w dt =
       (({ c with rotate_enabled :=
             if w.mouse_left = Action.press then true
             else if w.mouse_left = Action.release then false
             else c.rotate_enabled } : Camera).movement Direction.FORWARD dt).movement
         Direction.RIGHT dt) := by
  rw [Camera.on_input_toggle]
  refine ⟨?_, ?_, ?_⟩
  · split_ifs <;> simp [Camera.movement_rotate_enabled]
  · split_ifs <;>
      simp [Camera.movement_position_forward, Camera.movement_position_backward,
        Camera.movement_position_left, Camera.movement_position_right,
        Camera.movement_front, Camera.movement_right_vec, Camera.movement_movement_speed,
        Vec3.add_zero_vec]
  · intro hW hD hS hA
    simp [hW, hD, hS, hA]

/-- The backend poll state used in the C5 witness: W and D held, left
button released. -/
def pollWD : WindowState :=
  ⟨Action.release, Action.press, Action.release, Action.release, Action.press⟩

/-- Witness for claim C5: with W and D held from the default state, the
poll performs the forward move and then the right move, additively. -/
theorem on_input_poll_witness :
    (pollWD.key_w = Action.press ∧ pollWD.key_d = Action.press ∧
      pollWD.key_s ≠ Action.press ∧ pollWD.key_a ≠ Action.press) ∧
    camera0.on_input pollWD 1 =
      (({ camera0 with rotate_enabled :=
            if pollWD.mouse_left = Action.press then true
            else if pollWD.mouse_left = Action.release then false
            else camera0.rotate_enabled } : Camera).movement Direction.FORWARD 1).movement
        Direction.RIGHT 1 :=
  ⟨⟨rfl, rfl, by decide, by decide⟩,
   (on_input_poll camera0 pollWD 1).2.2 rfl rfl (by decide) (by decide)⟩

/-! ### Window orchestrator dispatch -/

theorem dispatchMouse_length {σ : Type} (e : MouseEvent) (dt : ℝ)
    (l : List (Controllable σ)) : (dispatchMouse e dt l).length = l.length := by
  induction l with
  | nil => rfl
  | cons c rest ih => simp [dispatchMouse, ih]

theorem dispatchMouse_get {σ : Type} (e : MouseEvent) (dt : ℝ)
    (l : List (Controllable σ)) (i : ℕ) :
    (dispatchMouse e dt l).get? i =
      (l.get? i).map
        (fun c => if c.lock_ok then { c with state := c.on_mouse c.state e dt } else c) := by
  induction l generalizing i with
  | nil => rfl
  | cons c rest ih =>
    cases i with
    | zero => rfl
    | succ n => simpa [dispatchMouse] using ih n

theorem dispatchKeyboard_length {σ : Type} (e : KeyEvent) (dt : ℝ)
    (l : List (Controllable σ)) : (dispatchKeyboard e dt l).length = l.length := by
  induction l with
  | nil => rfl
  | cons c rest ih => simp [dispatchKeyboard, ih]

theorem dispatchKeyboard_get {σ : Type} (e : KeyEvent) (dt : ℝ)
    (l : List (Controllable σ)) (i : ℕ) :
    (dispatchKeyboard e dt l).get? i =
      (l.get? i).map
        (fun c => if c.lock_ok then { c with state := c.on_keyboard c.state e dt } else c) := by
  induction l generalizing i with
  | nil => rfl
  | cons c rest ih =>
    cases i with
    | zero => rfl
    | succ n => simpa [dispatchKeyboard] using ih n

theorem dispatchInput_length {σ : Type} (ws : WindowState) (dt : ℝ)
    (l : List (Controllable σ)) : (dispatchInput ws dt l).length = l.length := by
  induction l with
  | nil => rfl
  | cons c rest ih => simp [dispatchInput, ih]

theorem dispatchInput_get {σ : Type} (ws : WindowState) (dt : ℝ)
    (l : List (Controllable σ)) (i : ℕ) :
    (dispatchInput ws dt l).get? i =
      (l.get? i).map
        (fun c => if c.lock_ok then { c with state := c.on_input c.state ws dt } else c) := by
  induction l generalizing i with
  | nil => rfl
  | cons c rest ih =>
    cases i with
    | zero => rfl
    | succ n => simpa [dispatchInput] using ih n

/-- The quit-key interception of `keyboard_event` never touches the
controllables list or the frame timing, so the dispatch loop runs on the
same registry and delta_time either way. -/
theorem WindowModel.keyboard_event_controls {σ : Type} (w : WindowModel σ) (k : KeyEvent) :
    (w.keyboard_event k).controls = dispatchKeyboard k w.delta_time w.controls := by
  obtain ⟨key, sc, ac, mods⟩ := k
  cases key <;> cases ac <;> rfl

theorem WindowModel.keyboard_event_close {σ : Type} (w : WindowModel σ) (k : KeyEvent) :
    (w.keyboard_event k).should_close =
      (if k.key = Key.escape ∧ k.action = Action.press then true else w.should_close) := by
  obtain ⟨key, sc, ac, mods⟩ := k
  cases key <;> cases ac <;> simp [WindowModel.keyboard_event]

/-- Claim C7: every event dispatch (mouse or keyboard) and every
per-frame continuous poll visits the registered controllables in
registration order (the i-th output entry is determined by the i-th
registered entry alone, the same way every frame); an entry whose lock
acquisition fails is left unchanged for that one dispatch while every
other entry is still processed, and dispatch is a total function, so no
failure is surfaced to the caller or fatal to the loop. -/
theorem dispatch_order_and_skip {σ : Type} (w : WindowModel σ) (e : MouseEvent)
    (k : KeyEvent) (i : ℕ) :
    ((w.mouse_event e).controls.length = w.controls.length ∧
     (w.mouse_event e).controls.get? i =
       (w.controls.get? i).map
         (fun c => if c.lock_ok then { c with state := c.on_mouse c.state e w.delta_time }
          else c)) ∧
    ((w.keyboard_event k).controls.length = w.controls.length ∧
     (w.keyboard_event k).controls.get? i =
       (w.controls.get? i).map
         (fun c => if c.lock_ok then { c with state := c.on_keyboard c.state k w.delta_time }
          else c)) ∧
    ((w.process_input).controls.length = w.controls.length ∧
     (w.process_input).controls.get? i =
       (w.controls.get? i).map
         (fun c => if c.lock_ok then { c with state := c.on_input c.state w.poll w.delta_time }
          else c)) :=
  ⟨⟨dispatchMouse_length e w.delta_time w.controls,
    dispatchMouse_get e w.delta_time w.controls i⟩,
   ⟨by rw [WindowModel.keyboard_event_controls]
       exact dispatchKeyboard_length k w.delta_time w.controls,
    by rw [WindowModel.keyboard_event_controls]
       exact dispatchKeyboard_get k w.delta_time w.controls i⟩,
   ⟨dispatchInput_length w.poll w.delta_time w.controls,
    dispatchInput_get w.poll w.delta_time w.controls i⟩⟩

/-- Claim C8: a keyboard event sets the window's should-close flag
exactly when the key is Escape with a press action (any other key event
leaves the flag unchanged), and this happens independently of
controllable dispatch: the event is still delivered to every registered
controllable's keyboard handler either way, lock failures skipped. -/
theorem keyboard_event_quit {σ : Type} (w : WindowModel σ) (k : KeyEvent) (i : ℕ) :
    ((w.keyboard_event k).should_close =
      (if k.key = Key.escape ∧ k.action = Action.press then true else w.should_close)) ∧
    (w.keyboard_event k).controls.get? i =
      (w.controls.get? i).map
        (fun c => if c.lock_ok then { c with state := c.on_keyboard c.state k w.delta_time }
         else c) :=
  ⟨WindowModel.keyboard_event_close w k,
   by rw [WindowModel.keyboard_event_controls]
      exact dispatchKeyboard_get k w.delta_time w.controls i⟩

/-- Claim C4: the first cursor-motion backend event processed while
last_mouse_pos is unset is dispatched with offset (0, 0) regardless of
the absolute position and seeds last_mouse_pos with that position; every
subsequent cursor-motion event is dispatched with
x_offset = current_x - last_x and y_offset = last_y - current_y (vertical
inverted) and updates last_mouse_pos to the current position. -/
theorem cursor_pos_offsets {σ : Type} (w : WindowModel σ) (x y lx ly : ℝ) :
    (w.last_mouse_pos = none →
      w.cursor_pos x y =
        WindowModel.mouse_event { w with last_mouse_pos := some (x, y) }
          ⟨x, y, 0, 0, false, none⟩ ∧
      (w.cursor_pos x y).last_mouse_pos = some (x, y)) ∧
    (w.last_mouse_pos = some (lx, ly) →
      w.cursor_pos x y =
        WindowModel.mouse_event { w with last_mouse_pos := some (x, y) }
          ⟨x, y, x - lx, ly - y, false, none⟩ ∧
      (w.cursor_pos x y).last_mouse_pos = some (x, y)) := by
  constructor
  · intro h
    constructor
    · simp [WindowModel.cursor_pos, h, sub_self]
    · simp [WindowModel.cursor_pos, h, WindowModel.mouse_event]
  · intro h
    constructor
    · simp [WindowModel.cursor_pos, h]
    · simp [WindowModel.cursor_pos, h, WindowModel.mouse_event]

/-- An idle window model over camera state with no registered
controllables and no recorded mouse position, used in witnesses. -/
def window0 : WindowModel Camera :=
  { controls := []
    delta_time := 0
    should_close := false
    last_mouse_pos := none
    poll := ⟨Action.release, Action.release, Action.release, Action.release, Action.release⟩ }

/-- Witness for claim C4: the very first cursor-motion event, at absolute
position (7, 5), is dispatched with offset (0, 0) and seeds the
last-known position with (7, 5). -/
theorem cursor_pos_offsets_witness :
    window0.last_mouse_pos = none ∧
    (window0.cursor_pos 7 5 =
       WindowModel.mouse_event { window0 with last_mouse_pos := some (7, 5) }
         ⟨7, 5, 0, 0, false, none⟩ ∧
     (window0.cursor_pos 7 5).last_mouse_pos = some (7, 5)) :=
  ⟨rfl, (cursor_pos_offsets window0 7 5 0 0).1 rfl⟩

end Reactor
